import Mathlib

/-!
# Verification of the mia_gc statement-to-ledger pipeline

A shallow embedding of the three statement processors of the repository
(`tcb_processor.py`, `capone_processor.py`, `chase7772_processor.py`, plus the
earlier 3-column TCB draft kept under `.ipynb_checkpoints`), together with
proofs about the embedded definitions.

Modelling conventions:
* money amounts are rationals (`ℚ`); the Python code uses IEEE floats, but no
  property below depends on float rounding error, only on the exact arithmetic
  the code spells out;
* calendar dates are `Option Nat` (an ordinal day; `none` models `NaT`,
  i.e. an unparsable date, which pandas sorts last) — `pd.to_datetime` itself
  is an external collaborator and is not re-implemented;
* `pandas.sort_values` is called with its default `kind='quicksort'`, which
  pandas does not document as stable, so the order of equal-date rows is not
  specified by the source; the model uses a deterministic stable insertion
  sort on the date key (`NaT` last) as one admissible refinement of
  "sorted ascending by date" — no theorem in this file depends on the
  model's equal-date tie order;
* Python's `sorted(keys, key=len, reverse=True)` is modelled by the same
  insertion sort with the length-descending comparator; here stability is
  part of the source's semantics (Python's `sorted` is documented stable,
  and `reverse=True` preserves tie order);
* Python dicts iterate in declaration order, so the vendor maps are
  association lists `List (key × account)` in declaration order.
-/

/-! ## Generic string helpers (Python `in`, `str.upper`, `str.strip`) -/

/-- Python's substring test `needle in hay` on character lists. -/
def containsSub (needle : List Char) : List Char → Bool
  | [] => needle.isEmpty
  | c :: t => needle.isPrefixOf (c :: t) || containsSub needle t

/-- Python's `needle in hay` on strings. -/
def substrB (needle hay : String) : Bool := containsSub needle.data hay.data

/-- Python `\w` (ASCII portion): letters, digits, underscore. -/
def isWordChar (c : Char) : Bool := c.isAlphanum || c = '_'

/-- Python `str.upper()` (ASCII portion). -/
def pyUpper (s : String) : String := String.mk (s.data.map Char.toUpper)

/-- Drop whitespace from both ends of a character list. -/
def trimChars (cs : List Char) : List Char :=
  ((cs.dropWhile Char.isWhitespace).reverse.dropWhile Char.isWhitespace).reverse

/-- Python `str.strip()`. -/
def pyStrip (s : String) : String := String.mk (trimChars s.data)

/-! ## Decimal-literal parsing (Python `float(...)` on cleaned cells)

The statement cells that reach `float` are plain decimal literals (optional
sign, digits, at most one dot); scientific notation, `nan` and `inf` never
occur in statement cells and are modelled as parse failures. -/

/-- Numeric value of a digit run, most significant digit first. -/
def digitsToNat (l : List Char) : Nat := l.foldl (fun n c => n * 10 + (c.toNat - 48)) 0

/-- Value of `whole.frac` as a rational. -/
def decimalVal (whole frac : List Char) : ℚ :=
  (digitsToNat whole : ℚ) + (digitsToNat frac : ℚ) / ((10 : ℚ) ^ frac.length)

/-- Parse an unsigned decimal literal `digits[.digits]` (at least one digit). -/
def parseUnsigned (cs : List Char) : Option ℚ :=
  let whole := cs.takeWhile (fun c => c ≠ '.')
  let rest := cs.dropWhile (fun c => c ≠ '.')
  match rest with
  | [] =>
    if whole.all Char.isDigit && !whole.isEmpty then some (decimalVal whole []) else none
  | _ :: frac =>
    if whole.all Char.isDigit && frac.all Char.isDigit && !(whole.isEmpty && frac.isEmpty)
    then some (decimalVal whole frac) else none

/-- Parse a signed decimal literal, as Python's `float` does on such strings. -/
def parseDecimalChars : List Char → Option ℚ
  | '-' :: rest => (parseUnsigned rest).map (fun q => -q)
  | '+' :: rest => parseUnsigned rest
  | cs => parseUnsigned cs

def parseDecimal (s : String) : Option ℚ := parseDecimalChars s.data

/-- Python `round(x, 2)`: round to two decimal places.  (Python rounds ties to
even; no property below touches a tie, so the rounding function may be the
standard one.) -/
def round2 (q : ℚ) : ℚ := (round (q * 100) : ℤ) / 100

/-! ## Stable sort (Python's `sorted`, `pandas.sort_values`)

`r x b = true` means `x` may be placed before `b`.  `ordInsert` inserts `x`
before the first element it may precede, so when `r` holds in both directions
on a tie the element coming from earlier in the list stays first: this is
exactly the stability contract of Python's `sorted`. -/

def ordInsert (r : α → α → Bool) (x : α) : List α → List α
  | [] => [x]
  | b :: l => if r x b then x :: b :: l else b :: ordInsert r x l

def stableSort (r : α → α → Bool) : List α → List α
  | [] => []
  | x :: xs => ordInsert r x (stableSort r xs)

/-! ## Sequential document numbering (`range(start, start+len)` zipped rowwise) -/

def numberFrom (g : α → Nat → β) : Nat → List α → List β
  | _, [] => []
  | n, x :: xs => g x n :: numberFrom g (n + 1) xs

/-! ## `List.find?` helpers -/

/-! ## Date ordering (`pandas.sort_values` key; `NaT` sorts last) -/

def dateLe : Option Nat → Option Nat → Bool
  | some x, some y => decide (x ≤ y)
  | some _, none => true
  | none, some _ => false
  | none, none => true

/-! ## Vendor classification shared by the card parsers

`capone_processor.map_account` / `map_short_desc` and
`chase7772_processor.map_account` / `map_short_desc` all iterate over
`sorted(map.keys(), key=len, reverse=True)` and return on the first key that
occurs in the uppercased description. -/

/-- `sorted(keys, key=len, reverse=True)`: length-descending, stable. -/
def lenGe (a b : String) : Bool := decide (b.length ≤ a.length)

def sortKeysLenDesc (keys : List String) : List String := stableSort lenGe keys

/-- The first (hence longest, earliest-declared on ties) map key occurring as
a substring of the uppercased description, if any. -/
def sortedFindKey (m : List (String × Int)) (desc : String) : Option String :=
  (sortKeysLenDesc (m.map Prod.fst)).find? (fun k => substrB k (pyUpper desc))

/-- Account bound to a key in a vendor map (Python dict lookup). -/
def lookupAcct (m : List (String × Int)) (k : String) : Int :=
  ((m.lookup k).getD 7800)

/-! ## `tcb_processor.py` — the four-column TCB PDF parser -/

namespace Tcb

/-- The shipped `debit_account_map` is an empty placeholder
(`# ... your mappings here ...`); classification functions below take the map
as an explicit parameter so that properties can be stated for any map. -/
def debit_account_map : List (String × String) := []

/-- The shipped `credit_account_map` is likewise an empty placeholder. -/
def credit_account_map : List (String × String) := []

/-- `fuzzy_header_match`: pad/trim the row to its first four cells, normalize
each (strip, uppercase, delete spaces) and compare for exact equality with the
expected labels. -/
def normCell (s : String) : String :=
  String.mk ((pyUpper (pyStrip s)).data.filter (fun c => c ≠ ' '))

def headerTargets : List String :=
  [("DATE"), ("BUSINESSWEBSITEORDESCRIPTION"), ("DEBITS"), ("CREDITS")]

def fuzzy_header_match (row : List String) : Bool :=
  let slice := (row.take 4) ++ List.replicate (4 - row.length) ("")
  (slice.take 4).map normCell == headerTargets

/-- Cleaning of a DEBITS/CREDITS cell: drop `$`, `,`, `(`, `)`, and spaces,
then drop one leading `-` (regex `^-`). -/
def stripMoney (s : String) : List Char :=
  s.data.filter (fun c => !(c = '$' || c = ',' || c = '(' || c = ')' || c = ' '))

def dropLeadMinus : List Char → List Char
  | '-' :: rest => rest
  | cs => cs

/-- `lambda x: float(x) if x else 0.0` applied to the cleaned cell; a cell
that `float` cannot parse raises in the Python code, modelled as `none`. -/
def parseAmount (s : String) : Option ℚ :=
  let cs := dropLeadMinus (stripMoney s)
  if cs.isEmpty then some 0 else parseDecimalChars cs

/-- A data row under the resolved DATE/DESCRIPTION/DEBITS/CREDITS columns,
with the date already handed to `pd.to_datetime` (external collaborator). -/
structure RawRow where
  date : Option Nat
  descr : String
  debits : String
  credits : String
deriving DecidableEq

/-- A typed row: both amount cells parsed. -/
structure Row where
  date : Option Nat
  descr : String
  debits : ℚ
  credits : ℚ
deriving DecidableEq

def typeRow (r : RawRow) : Except String Row :=
  match parseAmount r.debits, parseAmount r.credits with
  | some d, some c => Except.ok ⟨r.date, r.descr, d, c⟩
  | _, _ => Except.error ("could not convert string to float")

def typeRows (l : List RawRow) : Except String (List Row) := l.mapM typeRow

/-- Debit filter: `DEBITS > 0` and the description does not contain
`"DDA REGULAR CHECK"` (case-insensitive). -/
def debitPred (r : Row) : Bool :=
  decide (0 < r.debits) && !(substrB ("DDA REGULAR CHECK") (pyUpper r.descr))

/-- Credit filter: `CREDITS > 0`. -/
def creditPred (r : Row) : Bool := decide (0 < r.credits)

def rowDateLe (a b : Row) : Bool := dateLe a.date b.date

/-- `df_debits` after `sort_values("DATE")`.  The pandas call uses the default
`kind='quicksort'`, which leaves the relative order of equal-date rows
unspecified; the model picks the stable order, and nothing proved below
depends on that choice. -/
def debitRows (l : List Row) : List Row := stableSort rowDateLe (l.filter debitPred)

/-- `df_credits` after `sort_values("DATE")`; same tie-order caveat as
`debitRows`. -/
def creditRows (l : List Row) : List Row := stableSort rowDateLe (l.filter creditPred)

/-- `next((v for k, v in map.items() if k in desc), "7800")` on the uppercased
description: first *declared* key that matches, no length sorting. -/
def map_account (m : List (String × String)) (descU : String) : String :=
  ((m.find? (fun kv => substrB kv.1 descU)).map Prod.snd).getD ("7800")

/-- `next((k for k in map.keys() if k in desc), desc)` on the uppercased
description. -/
def short_desc (m : List (String × String)) (descU : String) : String :=
  ((m.find? (fun kv => substrB kv.1 descU)).map Prod.fst).getD descU

/-- Credit-side short description uses the map *values*:
`next((v for k, v in credit_account_map.items() if k in desc), desc)`. -/
def credit_short (m : List (String × String)) (descU : String) : String :=
  ((m.find? (fun kv => substrB kv.1 descU)).map Prod.snd).getD descU

structure ExportRow where
  date : Option Nat
  doc : String
  account : String
  descr : String
  amount : ℚ
  counter : String
  descr2 : String
  amountNeg : ℚ
deriving DecidableEq

/-- One exported debit row: `[date, GJ#i, account, short, amt, 1100, short, -amt]`
with `amt = round(DEBITS, 2)`. -/
def mkDebitExport (m : List (String × String)) (r : Row) (i : Nat) : ExportRow :=
  { date := r.date
    doc := "GJ#" ++ toString i
    account := map_account m (pyUpper r.descr)
    descr := short_desc m (pyUpper r.descr)
    amount := round2 r.debits
    counter := "1100"
    descr2 := short_desc m (pyUpper r.descr)
    amountNeg := -(round2 r.debits) }

/-- One exported credit row: `[date, DP#i, 1100, short, amt, 4000, short, -amt]`
(bank account primary, revenue account counter). -/
def mkCreditExport (cm : List (String × String)) (r : Row) (i : Nat) : ExportRow :=
  { date := r.date
    doc := "DP#" ++ toString i
    account := "1100"
    descr := credit_short cm (pyUpper r.descr)
    amount := round2 r.credits
    counter := "4000"
    descr2 := credit_short cm (pyUpper r.descr)
    amountNeg := -(round2 r.credits) }

def debitExportRows (m : List (String × String)) (l : List Row) (gj : Nat) :
    List ExportRow :=
  numberFrom (mkDebitExport m) gj (debitRows l)

def creditExportRows (cm : List (String × String)) (l : List Row) (dp : Nat) :
    List ExportRow :=
  numberFrom (mkCreditExport cm) dp (creditRows l)

structure UnmappedRow where
  date : Option Nat
  descr : String
  amount : ℚ
  account : String
deriving DecidableEq

/-- Unmapped report: the sorted debit rows whose account resolved to the
`"7800"` sentinel, carrying the *original* `DESCRIPTION` and the unrounded
amount. -/
def unmappedRows (m : List (String × String)) (l : List Row) : List UnmappedRow :=
  ((debitRows l).filter (fun r => map_account m (pyUpper r.descr) == "7800")).map
    (fun r => ⟨r.date, r.descr, r.debits, ("7800")⟩)

/-! ### Summary-line soft validation -/

/-- `val_clean = str(val).replace("$", "").replace(",", "").strip()` followed by
the `^\d+(\.\d+)?$` check and `float`. -/
def summaryParse (s : String) : Option ℚ :=
  let cleaned := pyStrip (String.mk (s.data.filter (fun c => !(c = '$' || c = ','))))
  let whole := cleaned.data.takeWhile (fun c => c ≠ '.')
  let rest := cleaned.data.dropWhile (fun c => c ≠ '.')
  match rest with
  | [] =>
    if !whole.isEmpty && whole.all Char.isDigit then some (decimalVal whole []) else none
  | _ :: frac =>
    if !whole.isEmpty && whole.all Char.isDigit && !frac.isEmpty && frac.all Char.isDigit
    then some (decimalVal whole frac) else none

/-- The running (min, max) fold over the numeric-looking cells of the summary
row: the smaller becomes the expected debit total, the larger the expected
credit total. -/
def summaryStep (st : Option ℚ × Option ℚ) (v : ℚ) : Option ℚ × Option ℚ :=
  (match st.1 with
   | none => some v
   | some d => if v < d then some v else some d,
   match st.2 with
   | none => some v
   | some c => if v > c then some v else some c)

def summaryTotals (row : List String) : Option ℚ × Option ℚ :=
  row.foldl
    (fun st cell =>
      match summaryParse cell with
      | none => st
      | some v => summaryStep st v)
    (none, none)

/-- Last row whose first cell contains `"TOTAL"` (found by scanning the grid
in reverse). -/
def summaryRowPred (row : List String) : Bool :=
  substrB ("TOTAL") (pyUpper (row.headD ("")))

def findSummaryRow (allRows : List (List String)) : Option (List String) :=
  allRows.reverse.find? summaryRowPred

/-- `abs(extracted - computed) < 1` — and `False` when nothing was extracted. -/
def matchesTotal : Option ℚ → ℚ → Bool
  | none, _ => false
  | some s, t => decide (|s - t| < 1)

/-- `none`: no summary row (only a notice is printed); `some true`: sums match;
`some false`: the warning is printed.  Never an error. -/
def summaryOutcome (allRows : List (List String)) (totalDebits totalCredits : ℚ) :
    Option Bool :=
  match findSummaryRow allRows with
  | none => none
  | some row =>
    let st := summaryTotals row
    some (matchesTotal st.1 totalDebits && matchesTotal st.2 totalCredits)

structure Output where
  debitExport : List ExportRow
  creditExport : List ExportRow
  unmapped : List UnmappedRow
  summaryOk : Option Bool
deriving DecidableEq

/-- `process_tcb_statement` from the typed rows on: split, sort, classify,
number, soft-validate, export.  The summary check only feeds `summaryOk`
(a print in the source); every export is produced unconditionally. -/
def process (dm cm : List (String × String)) (rows : List Row)
    (allRows : List (List String)) (gj dp : Nat) : Output :=
  { debitExport := debitExportRows dm rows gj
    creditExport := creditExportRows cm rows dp
    unmapped := unmappedRows dm rows
    summaryOk :=
      summaryOutcome allRows (((debitRows rows).map Row.debits).sum)
        (((creditRows rows).map Row.credits).sum) }

end Tcb

/-! ## `capone_processor.py` — Capital One card CSV parser -/

namespace Capone

/-- `capone_account_map`, in declaration order. -/
def capone_account_map : List (String × Int) :=
  [(("NEW YORK EYE"), 5000), (("VISION-EASE LENS"), 5000),
   (("SEIKO OPTICAL PRODUCTS"), 5000), (("HEB"), 7200), (("H-E-B"), 7200),
   (("WALMART"), 7200), (("HOME DEPOT"), 7300), (("THE HOME DEPOT"), 7300),
   (("LOWES"), 7300), (("OPTICAL WORKS CORP"), 7300),
   (("PRISM TOOL COMPANY LLC"), 7300), (("POSTAL CENTER PLUS"), 7210),
   (("AMAZON"), 7200), (("AMAZON MARK"), 7200), (("INSURANCE"), 6850),
   (("TEMU.COM"), 6050), (("MY VISION EXPRESS"), 7300), (("ATT"), 7600),
   (("ATT BILL PAYMENT"), 7600), (("REMOTEPc"), 7210)]

def UNCATEGORIZED_ACCOUNT : Int := 7800

/-- `map_account`: first key of length-descending (stable) order contained in
the uppercased description, else the uncategorized sentinel. -/
def map_account (m : List (String × Int)) (desc : String) : Int :=
  match sortedFindKey m desc with
  | some k => lookupAcct m k
  | none => UNCATEGORIZED_ACCOUNT

/-- `map_short_desc`: the matched key itself, else the input unchanged. -/
def map_short_desc (m : List (String × Int)) (desc : String) : String :=
  (sortedFindKey m desc).getD desc

/-- `Description_Clean`: `re.sub(r'[^\w\s]', '', desc).strip()`. -/
def cleanDesc (s : String) : String :=
  pyStrip (String.mk (s.data.filter (fun c => isWordChar c || c.isWhitespace)))

/-- One input row (dates already through `pd.to_datetime`; Debit/Credit
already through `pd.to_numeric(..., errors='coerce')`, `none` = NaN). -/
structure Raw where
  date : Option Nat
  descr : String
  debit : Option ℚ
  credit : Option ℚ
deriving DecidableEq

/-- `Amount = (Debit.fillna(0) - Credit.fillna(0)).abs()`. -/
def amount (r : Raw) : ℚ := |r.debit.getD 0 - r.credit.getD 0|

structure ExportRow where
  date : Option Nat
  doc : String
  account : Int
  descr : String
  amount : ℚ
  counter : Int
  descr2 : String
  amountNeg : ℚ
deriving DecidableEq

/-- `ShortDescForExport`: the mapped short description, except the *original*
full description for uncategorized rows. -/
def shortForExport (m : List (String × Int)) (r : Raw) : String :=
  if map_account m (cleanDesc r.descr) ≠ UNCATEGORIZED_ACCOUNT
  then map_short_desc m (cleanDesc r.descr) else r.descr

def mkExport (m : List (String × Int)) (r : Raw) (i : Nat) : ExportRow :=
  { date := r.date
    doc := "GJ#" ++ toString i
    account := map_account m (cleanDesc r.descr)
    descr := shortForExport m r
    amount := amount r
    counter := 2130
    descr2 := shortForExport m r
    amountNeg := -(amount r) }

structure UnmappedRow where
  date : Option Nat
  descr : String
  debit : Option ℚ
  credit : Option ℚ
  amount : ℚ
deriving DecidableEq

def rawDateLe (a b : Raw) : Bool := dateLe a.date b.date

/-- The two possible returns of `process_capone_csv`: the early
`CapOne_import_EMPTY_…` return (no file is written) and the normal return
with the export table and the (possibly empty) unmapped report. -/
inductive Result where
  | emptyReturn : Result
  | written : List ExportRow → List UnmappedRow → Result
deriving DecidableEq

/-- `process_capone_csv` from the parsed rows on: compute amounts, drop
`Amount <= 0`, sort by date (`sort_values` with its default unstable
`kind='quicksort'`; the model picks the stable equal-date order, on which
nothing proved below depends), number from `gj_startnum`, build the
double-entry rows and the unmapped report. -/
def process_capone_csv (m : List (String × Int)) (rows : List Raw) (gj : Nat) :
    Result :=
  let kept := rows.filter (fun r => decide (0 < amount r))
  let sorted := stableSort rawDateLe kept
  if sorted.length = 0 then Result.emptyReturn
  else
    Result.written (numberFrom (mkExport m) gj sorted)
      ((sorted.filter (fun r => map_account m (cleanDesc r.descr) == UNCATEGORIZED_ACCOUNT)).map
        (fun r => ⟨r.date, r.descr, r.debit, r.credit, amount r⟩))

end Capone

/-! ## `chase7772_processor.py` — Chase Visa 7772 CSV parser -/

namespace Chase

/-- `chase_account_map`, in declaration order. -/
def chase_account_map : List (String × Int) :=
  [(("MARCOLIN USA"), 5000), (("TIKTOK SHOP"), 7200), (("DILLEY TRUCK STOP"), 6800),
   (("HILCOVISION.COM"), 7200), (("DAC VISION"), 7200), (("TIKTOK ADS"), 6050),
   (("TIKTOK PROMOTE"), 6050), (("H-E-B GAS"), 6800), (("H-E-B GASCARWASH"), 6800),
   (("MY VISION EXPRESS"), 6650), (("MY VISION EXPRESS LLC"), 6650),
   (("IN EYETOPIA OPTICS LLC"), 5000), (("IN EYETOPIA OPTICS"), 5000),
   (("ELEVENLABS"), 6650), (("DNHGODADDY.COM"), 6050), (("OPTISOURCE"), 7200),
   (("YOUNGER OPTICS"), 5000), (("7-ELEVEN"), 6800), (("KERING EYEWEAR"), 5000),
   (("RMA TOLL"), 6250), (("DEL NORTE OPTICAL"), 5000),
   (("CLARITI EYEWEAR INC"), 5000), (("CLARITI EYEWEAR"), 5000),
   (("AMAZON MKTPL"), 7200), (("AMAZON"), 7200), (("GOOGLE YOUTUBE"), 6650),
   (("GOOGLE PLAY YOUTUBE"), 6650), (("GOOGLE CANVA"), 6650), (("FACEBK"), 6050),
   (("FACEBOOK"), 6050), (("FACEBOOK ADVERTISING"), 6050), (("OPENAI"), 6650),
   (("DOMINOS"), 6700), (("MICROSOFT"), 6650), (("WORDPRESS"), 6050),
   (("SPECTRUM MOBILE"), 7600), (("SPECTRUM"), 7700), (("VALET TIPS"), 6250),
   (("8TO80 EYEWEAR"), 5000), (("EIGHT TO EIGHTY EYEWEAR"), 5000),
   (("KENMARK OPTICAL"), 5000), (("LUXOTTICA"), 5000),
   (("DEL MAR MINI STORAGE"), 7250), (("VALLEY SHREDDING"), 6650),
   (("CHICK-FIL-A"), 6700), (("EXXON"), 6800), (("SE GAS"), 6800),
   (("FUEL AMERICA"), 6800), (("CUSTOM BRAND"), 5000), (("HOKKAIDO"), 6700),
   (("YUMM"), 6800), (("SHELL OIL"), 6800)]

def UNCATEGORIZED_ACCOUNT : Int := 7800

def CHASE_VISA_ACCOUNT : Int := 2135

def BANK_ACCOUNT : Int := 1100

/-- `map_account` with the `"AUTOMATIC PAYMENT"` literal fallback before the
uncategorized sentinel. -/
def map_account (m : List (String × Int)) (desc : String) : Int :=
  match sortedFindKey m desc with
  | some k => lookupAcct m k
  | none =>
    if substrB ("AUTOMATIC PAYMENT") (pyUpper desc) then CHASE_VISA_ACCOUNT
    else UNCATEGORIZED_ACCOUNT

def map_short_desc (m : List (String × Int)) (desc : String) : String :=
  match sortedFindKey m desc with
  | some k => k
  | none =>
    if substrB ("AUTOMATIC PAYMENT") (pyUpper desc) then ("AUTOMATIC PAYMENT")
    else desc

/-- `CleanDescription`: `re.sub(r'\W+', ' ', desc).strip()` — every maximal
run of non-word characters becomes one space, then ends are stripped. -/
def collapseSpaces : List Char → List Char
  | [] => []
  | ' ' :: ' ' :: t => collapseSpaces (' ' :: t)
  | c :: t => c :: collapseSpaces t

def cleanDesc (s : String) : String :=
  pyStrip (String.mk (collapseSpaces (s.data.map (fun c => if isWordChar c then c else ' '))))

/-- One input CSV row (`Amount` through `pd.to_numeric(..., errors='coerce')`,
`none` = NaN before `fillna(0)`). -/
structure Raw where
  date : Option Nat
  descr : String
  amountRaw : Option ℚ
deriving DecidableEq

def amt (r : Raw) : ℚ := r.amountRaw.getD 0

structure ExportRow where
  date : Option Nat
  doc : String
  account : Int
  descr : String
  amount : ℚ
  counter : Int
  descr2 : String
  amountNeg : ℚ
deriving DecidableEq

/-- `CounterAccount = BANK_ACCOUNT if Amount < 0 else CHASE_VISA_ACCOUNT`. -/
def counterFor (r : Raw) : Int :=
  if amt r < 0 then BANK_ACCOUNT else CHASE_VISA_ACCOUNT

/-- One export row: the signed `Amount` on the first leg and
`AmountNeg = -abs(Amount)` on the second. -/
def mkExport (m : List (String × Int)) (r : Raw) (i : Nat) : ExportRow :=
  { date := r.date
    doc := "GJ#" ++ toString i
    account := map_account m (cleanDesc r.descr)
    descr := map_short_desc m (cleanDesc r.descr)
    amount := amt r
    counter := counterFor r
    descr2 := map_short_desc m (cleanDesc r.descr)
    amountNeg := -|amt r| }

structure UnmappedRow where
  date : Option Nat
  descr : String
  amount : ℚ
deriving DecidableEq

def rawDateLe (a b : Raw) : Bool := dateLe a.date b.date

structure Output where
  exportRows : List ExportRow
  unmapped : List UnmappedRow
deriving DecidableEq

/-- `process_chase7772_csv` from the parsed rows on: no row is ever dropped
(there is no zero-amount filter); sort by date (`sort_values` with its
default unstable `kind='quicksort'`; the model picks the stable equal-date
order, on which nothing proved below depends), number from `gj_startnum`,
export, and report the uncategorized rows with their *original*
description. -/
def process_chase7772_csv (m : List (String × Int)) (rows : List Raw) (gj : Nat) :
    Output :=
  let sorted := stableSort rawDateLe rows
  { exportRows := numberFrom (mkExport m) gj sorted
    unmapped :=
      (sorted.filter (fun r => map_account m (cleanDesc r.descr) == UNCATEGORIZED_ACCOUNT)).map
        (fun r => ⟨r.date, r.descr, amt r⟩) }

end Chase

/-! ## The earlier 3-column TCB draft (`.ipynb_checkpoints/tcb_processor-checkpoint.py`) -/

namespace TcbDraft

/-- One row after fuzzy column resolution and amount/date cleaning
(`clean_amount` + `pd.to_datetime(errors='coerce')`): `none` models a
dropped-by-`dropna` null. -/
structure Row where
  date : Option Nat
  descr : Option String
  amount : ℚ
deriving DecidableEq

/-- Rows surviving `dropna(subset=['DATE', 'DESCRIPTION'])` and
`df[df['Amount'] != 0]`. -/
def keepPred (r : Row) : Bool :=
  r.date.isSome && r.descr.isSome && !(r.amount == 0)

def rowDateLe (a b : Row) : Bool := dateLe a.date b.date

def emptyMsg : String :=
  "No valid transactions found after cleaning and filtering. Check source PDF for data quality."

/-- The filter/sort stage ending in the fatal
`raise ValueError(...)` when everything was dropped; all exports are built
strictly after this stage, so an error here means no output at all. -/
def filterStage (rows : List Row) : Except String (List Row) :=
  let kept := stableSort rowDateLe (rows.filter keepPred)
  if kept.isEmpty then Except.error emptyMsg else Except.ok kept

end TcbDraft

/-! ## Lemmas: stable sort, numbering, search -/

theorem mem_ordInsert (r : α → α → Bool) (x y : α) :
    ∀ l : List α, (y ∈ ordInsert r x l ↔ y = x ∨ y ∈ l)
  | [] => by simp [ordInsert]
  | b :: l => by
    by_cases h : r x b = true
    · simp [ordInsert, h]
    · simp only [ordInsert, if_neg h, List.mem_cons, mem_ordInsert r x y l]
      tauto

theorem perm_ordInsert (r : α → α → Bool) (x : α) :
    ∀ l : List α, List.Perm (ordInsert r x l) (x :: l)
  | [] => List.Perm.refl _
  | b :: l => by
    by_cases h : r x b = true
    · simp [ordInsert, h]
    · simpa [ordInsert, h] using
        ((perm_ordInsert r x l).cons b).trans (List.Perm.swap x b l)

theorem perm_stableSort (r : α → α → Bool) :
    ∀ l : List α, List.Perm (stableSort r l) l
  | [] => List.Perm.refl _
  | x :: xs =>
    (perm_ordInsert r x (stableSort r xs)).trans ((perm_stableSort r xs).cons x)

theorem mem_stableSort (r : α → α → Bool) (l : List α) (x : α) :
    x ∈ stableSort r l ↔ x ∈ l :=
  (perm_stableSort r l).mem_iff


theorem pairwise_ordInsert (r : α → α → Bool)
    (htot : ∀ a b, r a b = false → r b a = true)
    (htrans : ∀ a b c, r a b = true → r b c = true → r a c = true) (x : α) :
    ∀ l : List α, List.Pairwise (fun a b => r a b = true) l →
      List.Pairwise (fun a b => r a b = true) (ordInsert r x l)
  | [], _ => by simp [ordInsert]
  | b :: l, h => by
    rcases List.pairwise_cons.1 h with ⟨hb, hl⟩
    by_cases hr : r x b = true
    · rw [ordInsert, if_pos hr]
      refine List.pairwise_cons.2 ⟨?_, h⟩
      intro c hc
      rcases List.mem_cons.1 hc with rfl | hc
      · exact hr
      · exact htrans x b c hr (hb c hc)
    · rw [ordInsert, if_neg hr]
      refine List.pairwise_cons.2 ⟨?_, pairwise_ordInsert r htot htrans x l hl⟩
      intro c hc
      rcases (mem_ordInsert r x c l).1 hc with hceq | hc
      · cases hceq
        exact htot _ b (by simpa using hr)
      · exact hb c hc

theorem pairwise_stableSort (r : α → α → Bool)
    (htot : ∀ a b, r a b = false → r b a = true)
    (htrans : ∀ a b c, r a b = true → r b c = true → r a c = true) :
    ∀ l : List α, List.Pairwise (fun a b => r a b = true) (stableSort r l)
  | [] => by simp [stableSort]
  | x :: xs =>
    pairwise_ordInsert r htot htrans x (stableSort r xs)
      (pairwise_stableSort r htot htrans xs)

theorem filter_ordInsert_neg (r : α → α → Bool) (q : α → Bool) (x : α)
    (hx : q x = false) :
    ∀ l : List α, (ordInsert r x l).filter q = l.filter q
  | [] => by simp [ordInsert, hx]
  | b :: l => by
    by_cases hr : r x b = true
    · simp [ordInsert, hr, hx]
    · by_cases hb : q b = true
      · simp [ordInsert, hr, hb, filter_ordInsert_neg r q x hx l]
      · simp only [Bool.not_eq_true] at hb
        simp [ordInsert, hr, hb, filter_ordInsert_neg r q x hx l]

theorem filter_ordInsert_pos (r : α → α → Bool) (q : α → Bool) (x : α)
    (hx : q x = true) (himp : ∀ b, q b = true → r x b = true) :
    ∀ l : List α, (ordInsert r x l).filter q = x :: l.filter q
  | [] => by simp [ordInsert, hx]
  | b :: l => by
    by_cases hr : r x b = true
    · simp [ordInsert, hr, hx]
    · have hb : q b = false := by
        cases hqb : q b with
        | false => rfl
        | true => exact absurd (himp b hqb) (by simpa using hr)
      simp [ordInsert, hr, hb, filter_ordInsert_pos r q x hx himp l]

/-- Stability of the sort: the subsequence of elements that tie on the sort
key (any `q` on which `r` always holds both ways) is left untouched. -/
theorem filter_stableSort (r : α → α → Bool) (q : α → Bool)
    (hcomp : ∀ a b, q a = true → q b = true → r a b = true) :
    ∀ l : List α, (stableSort r l).filter q = l.filter q
  | [] => by simp [stableSort]
  | x :: xs => by
    by_cases hx : q x = true
    · rw [stableSort, filter_ordInsert_pos r q x hx (fun b hb => hcomp x b hx hb),
        filter_stableSort r q hcomp xs, List.filter_cons_of_pos hx]
    · simp only [Bool.not_eq_true] at hx
      rw [stableSort, filter_ordInsert_neg r q x hx,
        filter_stableSort r q hcomp xs, List.filter_cons_of_neg (by simp [hx])]



theorem mem_numberFrom (g : α → Nat → β) :
    ∀ (n : Nat) (l : List α) (b : β), b ∈ numberFrom g n l → ∃ a i, a ∈ l ∧ b = g a i
  | _, [], _, h => by simp [numberFrom] at h
  | n, x :: xs, b, h => by
    rcases List.mem_cons.1 h with rfl | h
    · exact ⟨x, n, List.mem_cons_self x xs, rfl⟩
    · rcases mem_numberFrom g (n + 1) xs b h with ⟨a, i, ha, hb⟩
      exact ⟨a, i, List.mem_cons_of_mem x ha, hb⟩

theorem find?_decomp {p : α → Bool} :
    ∀ {l : List α} {a : α}, l.find? p = some a →
      ∃ l₁ l₂, l = l₁ ++ a :: l₂ ∧ (∀ x ∈ l₁, p x = false) ∧ p a = true
  | [], a, h => by simp [List.find?] at h
  | b :: t, a, h => by
    cases hb : p b with
    | true =>
      rw [List.find?_cons_of_pos _ hb, Option.some_inj] at h
      subst h
      exact ⟨[], t, rfl, by simp, hb⟩
    | false =>
      rw [List.find?_cons_of_neg _ (by simp [hb])] at h
      rcases find?_decomp h with ⟨l₁, l₂, rfl, h₁, h₂⟩
      exact ⟨b :: l₁, l₂, rfl, by
        intro x hx
        rcases List.mem_cons.1 hx with rfl | hx
        · exact hb
        · exact h₁ x hx, h₂⟩

theorem find?_max_sorted {r : α → α → Bool} {p : α → Bool}
    (hrefl : ∀ a, r a a = true) :
    ∀ {l : List α} {k : α}, List.Pairwise (fun a b => r a b = true) l →
      l.find? p = some k → ∀ x ∈ l, p x = true → r k x = true
  | [], k, _, h => by simp [List.find?] at h
  | b :: t, k, hs, h => by
    rcases List.pairwise_cons.1 hs with ⟨hb, ht⟩
    cases hpb : p b with
    | true =>
      rw [List.find?_cons_of_pos _ hpb, Option.some_inj] at h
      subst h
      intro x hx _
      rcases List.mem_cons.1 hx with rfl | hx
      · exact hrefl x
      · exact hb x hx
    | false =>
      rw [List.find?_cons_of_neg _ (by simp [hpb])] at h
      intro x hx hpx
      rcases List.mem_cons.1 hx with rfl | hx
      · rw [hpx] at hpb; cases hpb
      · exact find?_max_sorted hrefl ht h x hx hpx

theorem find?_filter_head {p q : α → Bool} :
    ∀ {l : List α} {k : α}, l.find? p = some k → q k = true →
      (l.filter (fun x => p x && q x)).head? = some k
  | [], k, h, _ => by simp [List.find?] at h
  | b :: t, k, h, hq => by
    cases hpb : p b with
    | true =>
      rw [List.find?_cons_of_pos _ hpb, Option.some_inj] at h
      subst h
      simp [List.filter_cons, hpb, hq]
    | false =>
      rw [List.find?_cons_of_neg _ (by simp [hpb])] at h
      simpa [List.filter_cons, hpb] using find?_filter_head h hq

theorem filter_and_split (p q : α → Bool) :
    ∀ l : List α, l.filter (fun x => p x && q x) = (l.filter q).filter p
  | [] => rfl
  | b :: t => by
    have ih := filter_and_split p q t
    by_cases hq : q b = true
    · by_cases hp : p b = true
      · simp only [List.filter_cons, hp, hq, Bool.and_true, if_true]
        rw [ih]
      · simp only [Bool.not_eq_true] at hp
        simp only [List.filter_cons, hp, hq, Bool.false_and, if_true, if_false,
          Bool.false_eq_true]
        rw [ih]
    · simp only [Bool.not_eq_true] at hq
      simp only [List.filter_cons, hq, Bool.and_false, if_false, Bool.false_eq_true]
      rw [ih]




theorem lenGe_refl (a : String) : lenGe a a = true := by simp [lenGe]

theorem lenGe_total (a b : String) : lenGe a b = false → lenGe b a = true := by
  simp only [lenGe, decide_eq_false_iff_not, decide_eq_true_eq]
  omega

theorem lenGe_trans (a b c : String) :
    lenGe a b = true → lenGe b c = true → lenGe a c = true := by
  simp only [lenGe, decide_eq_true_eq]
  omega

/-! ## Batch membership helpers -/

theorem tcb_mem_debitRows (rows : List Tcb.Row) (r : Tcb.Row) :
    r ∈ Tcb.debitRows rows ↔ r ∈ rows ∧ Tcb.debitPred r = true := by
  rw [Tcb.debitRows, mem_stableSort, List.mem_filter]

theorem tcb_mem_creditRows (rows : List Tcb.Row) (r : Tcb.Row) :
    r ∈ Tcb.creditRows rows ↔ r ∈ rows ∧ Tcb.creditPred r = true := by
  rw [Tcb.creditRows, mem_stableSort, List.mem_filter]

/-! ## Claim theorems -/

/-- C6 (counterexample): the spec says the near-miss row
`["DATE","DESC","DEBIT","CREDIT"]` (3 of 4 keyword substrings) still matches
the header predicate; the shipped `fuzzy_header_match` is an exact positional
comparison and rejects it. -/
theorem c6_counterexample :
    Tcb.fuzzy_header_match [("DATE"), ("DESC"), ("DEBIT"), ("CREDIT")] = false := by
  decide

/-- C6 (amended): a row satisfies the TCB header predicate iff its first four
cells (padded with empty strings), each normalized by strip/uppercase/space
removal, are exactly `DATE`, `BUSINESSWEBSITEORDESCRIPTION`, `DEBITS`,
`CREDITS`; in particular the exact header row
`["Date","Business Website or Description","Debits","Credits"]` matches.
There is no ≥3-keyword threshold predicate. -/
theorem c6_exact_header_predicate :
    (∀ row : List String,
      Tcb.fuzzy_header_match row = true ↔
        (Tcb.normCell (row.getD 0 ("")) = ("DATE") ∧
         Tcb.normCell (row.getD 1 ("")) = ("BUSINESSWEBSITEORDESCRIPTION") ∧
         Tcb.normCell (row.getD 2 ("")) = ("DEBITS") ∧
         Tcb.normCell (row.getD 3 ("")) = ("CREDITS")))
    ∧ Tcb.fuzzy_header_match
        [("Date"), ("Business Website or Description"), ("Debits"), ("Credits")] = true := by
  constructor
  · intro row
    match row with
    | [] => simp [Tcb.fuzzy_header_match, Tcb.headerTargets]
    | [a] => simp [Tcb.fuzzy_header_match, Tcb.headerTargets, and_assoc]
    | [a, b] => simp [Tcb.fuzzy_header_match, Tcb.headerTargets, and_assoc]
    | [a, b, c] => simp [Tcb.fuzzy_header_match, Tcb.headerTargets, and_assoc]
    | a :: b :: c :: d :: rest =>
      simp [Tcb.fuzzy_header_match, Tcb.headerTargets, and_assoc,
        show 4 - (rest.length + 4) = 0 from by omega]
  · decide

/-- C7 (confirmed): a typed row enters the TCB debit batch iff its DEBITS
value is positive and its description does not contain `"DDA REGULAR CHECK"`
(case-insensitively); a row enters the credit batch iff its CREDITS value is
positive; concretely, the row with description `"DDA REGULAR CHECK #1042"`
and positive debit `150.00` types successfully but is excluded from the debit
batch. -/
theorem c7_debit_credit_split :
    (∀ (rows : List Tcb.Row) (r : Tcb.Row),
      r ∈ Tcb.debitRows rows ↔
        r ∈ rows ∧ 0 < r.debits ∧
          substrB ("DDA REGULAR CHECK") (pyUpper r.descr) = false)
    ∧ (∀ (rows : List Tcb.Row) (r : Tcb.Row),
      r ∈ Tcb.creditRows rows ↔ r ∈ rows ∧ 0 < r.credits)
    ∧ (Tcb.typeRows [⟨some 3, ("DDA REGULAR CHECK #1042"), ("150.00"), ("")⟩] =
        Except.ok [⟨some 3, ("DDA REGULAR CHECK #1042"), 150, 0⟩]
       ∧ Tcb.debitRows [⟨some 3, ("DDA REGULAR CHECK #1042"), 150, 0⟩] = []
       ∧ (0 : ℚ) < 150) := by
  refine ⟨?_, ?_, ?_, ?_, ?_⟩
  · intro rows r
    rw [tcb_mem_debitRows, Tcb.debitPred]
    simp [and_assoc]
  · intro rows r
    rw [tcb_mem_creditRows, Tcb.creditPred]
    simp
  · with_unfolding_all rfl
  · with_unfolding_all rfl
  · norm_num

/-- C10 (confirmed): every row exported by `process_chase7772_csv` carries the
bank account `1100` as counter account when its signed Amount is negative and
the Chase Visa liability account `2135` when the Amount is zero or positive;
the counter account is decided row by row, not per batch. -/
theorem c10_counter_account (m : List (String × Int)) (rows : List Chase.Raw)
    (gj : Nat) (e : Chase.ExportRow)
    (he : e ∈ (Chase.process_chase7772_csv m rows gj).exportRows) :
    (e.amount < 0 → e.counter = Chase.BANK_ACCOUNT) ∧
    (0 ≤ e.amount → e.counter = Chase.CHASE_VISA_ACCOUNT) := by
  rcases mem_numberFrom _ _ _ _ he with ⟨r, i, hr, rfl⟩
  constructor
  · intro hneg
    have hneg' : Chase.amt r < 0 := hneg
    show Chase.counterFor r = Chase.BANK_ACCOUNT
    rw [Chase.counterFor, if_pos hneg']
  · intro hpos
    have hpos' : (0 : ℚ) ≤ Chase.amt r := hpos
    show Chase.counterFor r = Chase.CHASE_VISA_ACCOUNT
    rw [Chase.counterFor, if_neg (not_lt.2 hpos')]

/-- C10 witness: the single-row run with Amount `-5` yields an export row with
counter account `1100`. -/
theorem c10_witness :
    ((⟨some 1, "GJ#9", 7800, ("X"), -5, 1100, ("X"), -5⟩ : Chase.ExportRow) ∈
      (Chase.process_chase7772_csv [] [⟨some 1, ("X"), some (-5)⟩] 9).exportRows) ∧
    (((⟨some 1, "GJ#9", 7800, ("X"), -5, 1100, ("X"), -5⟩ : Chase.ExportRow).amount < 0 →
        (⟨some 1, "GJ#9", 7800, ("X"), -5, 1100, ("X"), -5⟩ : Chase.ExportRow).counter =
          Chase.BANK_ACCOUNT) ∧
     (0 ≤ (⟨some 1, "GJ#9", 7800, ("X"), -5, 1100, ("X"), -5⟩ : Chase.ExportRow).amount →
        (⟨some 1, "GJ#9", 7800, ("X"), -5, 1100, ("X"), -5⟩ : Chase.ExportRow).counter =
          Chase.CHASE_VISA_ACCOUNT)) := by
  have hlist : (Chase.process_chase7772_csv [] [⟨some 1, ("X"), some (-5)⟩] 9).exportRows =
      [⟨some 1, "GJ#9", 7800, ("X"), -5, 1100, ("X"), -5⟩] := by with_unfolding_all rfl
  have hmem : (⟨some 1, "GJ#9", 7800, ("X"), -5, 1100, ("X"), -5⟩ : Chase.ExportRow) ∈
      (Chase.process_chase7772_csv [] [⟨some 1, ("X"), some (-5)⟩] 9).exportRows := by
    rw [hlist]
    exact List.mem_singleton.mpr rfl
  exact ⟨hmem, c10_counter_account [] [⟨some 1, ("X"), some (-5)⟩] 9 _ hmem⟩

/-- C1 (code bug): on a Chase 7772 row with negative signed Amount the export
row's two amount fields are `Amount` and `-abs(Amount)`, which coincide
instead of being negations of each other: for Amount `-45` the emitted pair
is `(-45, -45)`, summing to `-90`, not `0`.  (The TCB and CapOne exports do
emit exact negations.) -/
theorem c1_chase_unbalanced_row :
    ((Chase.process_chase7772_csv [] [⟨some 1, ("WALMART"), some (-45)⟩] 7).exportRows.map
      (fun e => (e.amount, e.amountNeg)) = [((-45 : ℚ), -45)])
    ∧ ((-45 : ℚ) + -45 ≠ 0) :=
  ⟨by with_unfolding_all rfl, by norm_num⟩

/-- C4 (counterexample): the claim says zero-amount transactions never appear
in any output table, but `process_chase7772_csv` has no zero-amount filter: a
row whose Amount is `0` is exported (here as the only export row, with amount
field `0`). -/
theorem c4_counterexample :
    (Chase.process_chase7772_csv [] [⟨some 1, ("POSTAGE"), some 0⟩] 3).exportRows.map
      (fun e => e.amount) = [(0 : ℚ)] := by
  with_unfolding_all rfl

/-- C4 (amended): zero-amount transactions never appear in the CapOne outputs
(primary export or unmapped report) nor in the TCB batches or unmapped report
— every amount there is strictly positive; the Chase 7772 processor applies
no zero-amount filter, so zero-amount rows do reach its outputs. -/
theorem c4_no_zero_amounts_capone_tcb :
    (∀ (m : List (String × Int)) (rows : List Capone.Raw) (gj : Nat)
       (e : List Capone.ExportRow) (u : List Capone.UnmappedRow),
       Capone.process_capone_csv m rows gj = Capone.Result.written e u →
       (∀ x ∈ e, 0 < x.amount) ∧ (∀ y ∈ u, 0 < y.amount))
    ∧ (∀ (rows : List Tcb.Row) (r : Tcb.Row), r ∈ Tcb.debitRows rows → 0 < r.debits)
    ∧ (∀ (rows : List Tcb.Row) (r : Tcb.Row), r ∈ Tcb.creditRows rows → 0 < r.credits)
    ∧ (∀ (m : List (String × String)) (rows : List Tcb.Row) (u : Tcb.UnmappedRow),
       u ∈ Tcb.unmappedRows m rows → 0 < u.amount) := by
  refine ⟨?_, ?_, ?_, ?_⟩
  · intro m rows gj e u h
    rw [Capone.process_capone_csv] at h
    by_cases hlen :
        (stableSort Capone.rawDateLe (rows.filter (fun r => decide (0 < Capone.amount r)))).length = 0
    · rw [if_pos hlen] at h
      cases h
    · rw [if_neg hlen] at h
      rcases Capone.Result.written.inj h with ⟨he, hu⟩
      constructor
      · intro x hx
        rw [← he] at hx
        rcases mem_numberFrom _ _ _ _ hx with ⟨r, i, hr, rfl⟩
        have hr' := (List.mem_filter.1 ((mem_stableSort _ _ _).1 hr)).2
        have : (0 : ℚ) < Capone.amount r := by simpa using hr'
        exact this
      · intro y hy
        rw [← hu] at hy
        rcases List.mem_map.1 hy with ⟨r, hr, rfl⟩
        have hr2 := (List.mem_filter.1 hr).1
        have hr' := (List.mem_filter.1 ((mem_stableSort _ _ _).1 hr2)).2
        have : (0 : ℚ) < Capone.amount r := by simpa using hr'
        exact this
  · intro rows r h
    have := ((tcb_mem_debitRows rows r).1 h).2
    rw [Tcb.debitPred] at this
    simp only [Bool.and_eq_true, decide_eq_true_eq] at this
    exact this.1
  · intro rows r h
    have := ((tcb_mem_creditRows rows r).1 h).2
    rw [Tcb.creditPred] at this
    simpa using this
  · intro m rows u h
    rcases List.mem_map.1 h with ⟨r, hr, rfl⟩
    have hr2 := (List.mem_filter.1 hr).1
    have := ((tcb_mem_debitRows rows r).1 hr2).2
    rw [Tcb.debitPred] at this
    simp only [Bool.and_eq_true, decide_eq_true_eq] at this
    exact this.1

/-- C4 witness: a concrete CapOne run whose export and unmapped rows all have
strictly positive amounts. -/
theorem c4_witness :
    Capone.process_capone_csv [] [⟨some 1, ("B"), some 7, none⟩] 1 =
      Capone.Result.written
        [⟨some 1, "GJ#1", 7800, ("B"), 7, 2130, ("B"), -7⟩]
        [⟨some 1, ("B"), some 7, none, 7⟩]
    ∧ (∀ x ∈ [(⟨some 1, "GJ#1", 7800, ("B"), 7, 2130, ("B"), -7⟩ : Capone.ExportRow)],
        0 < x.amount)
    ∧ (∀ y ∈ [(⟨some 1, ("B"), some 7, none, 7⟩ : Capone.UnmappedRow)], 0 < y.amount) := by
  have h : Capone.process_capone_csv [] [⟨some 1, ("B"), some 7, none⟩] 1 =
      Capone.Result.written
        [⟨some 1, "GJ#1", 7800, ("B"), 7, 2130, ("B"), -7⟩]
        [⟨some 1, ("B"), some 7, none, 7⟩] := by with_unfolding_all rfl
  have h2 := c4_no_zero_amounts_capone_tcb.1 [] [⟨some 1, ("B"), some 7, none⟩] 1 _ _ h
  exact ⟨h, h2.1, h2.2⟩

/-- C5 (counterexample): on an input whose rows are all dropped by the
zero-amount filter, `process_capone_csv` does not fail with a fatal
`EmptyResultError`-style error — it returns normally with the
`CapOne_import_EMPTY_…` filename marker (writing no file). -/
theorem c5_counterexample :
    Capone.process_capone_csv Capone.capone_account_map
      [⟨some 2, ("BALANCE ADJUSTMENT"), some 25, some 25⟩, ⟨some 5, ("FEE"), none, none⟩] 11 =
      Capone.Result.emptyReturn := by
  with_unfolding_all rfl

/-- C5 (amended): when every row is dropped by the filters, the CapOne
processor returns normally with the EMPTY filename marker and emits no export
rows (no partial file), while the earlier 3-column TCB draft raises the fatal
`ValueError` before any export is built. -/
theorem c5_empty_result_behaviour :
    (∀ (m : List (String × Int)) (rows : List Capone.Raw) (gj : Nat),
       (∀ r ∈ rows, Capone.amount r = 0) →
       Capone.process_capone_csv m rows gj = Capone.Result.emptyReturn)
    ∧ (∀ rows : List TcbDraft.Row,
       (∀ r ∈ rows, TcbDraft.keepPred r = false) →
       TcbDraft.filterStage rows = Except.error TcbDraft.emptyMsg) := by
  constructor
  · intro m rows gj h
    have hfil : rows.filter (fun r => decide (0 < Capone.amount r)) = [] := by
      rw [List.filter_eq_nil_iff]
      intro r hr
      simp [h r hr]
    rw [Capone.process_capone_csv, hfil]
    rfl
  · intro rows h
    have hfil : rows.filter TcbDraft.keepPred = [] := by
      rw [List.filter_eq_nil_iff]
      intro r hr
      simp [h r hr]
    rw [TcbDraft.filterStage, hfil]
    rfl

/-- C5 witness: a run whose single row nets to zero takes the EMPTY return,
and a draft run whose single row has no date errors out. -/
theorem c5_witness :
    Capone.process_capone_csv [] [⟨some 2, ("X"), some 3, some 3⟩] 4 =
      Capone.Result.emptyReturn
    ∧ TcbDraft.filterStage [⟨none, some ("Y"), 5⟩] = Except.error TcbDraft.emptyMsg :=
  ⟨c5_empty_result_behaviour.1 [] [⟨some 2, ("X"), some 3, some 3⟩] 4
     (by
       intro r hr
       rw [List.mem_singleton.1 hr]
       with_unfolding_all rfl),
   c5_empty_result_behaviour.2 [⟨none, some ("Y"), 5⟩]
     (by
       intro r hr
       rw [List.mem_singleton.1 hr]
       rfl)⟩

/-- C2 (counterexample): the TCB classifier iterates the map in declaration
order with no length sorting, so with the map
`{"AMAZON": 7200, "AMAZON MKTPL": 7300}` and description `"AMAZON MKTPL US"`
— where both keys match and `"AMAZON MKTPL"` is strictly longer — it returns
the first-declared key's code `7200`, not the longest match's `7300`. -/
theorem c2_counterexample :
    Tcb.map_account [(("AMAZON"), ("7200")), (("AMAZON MKTPL"), ("7300"))]
      ("AMAZON MKTPL US") = ("7200")
    ∧ substrB ("AMAZON MKTPL") ("AMAZON MKTPL US") = true
    ∧ substrB ("AMAZON") ("AMAZON MKTPL US") = true
    ∧ (("AMAZON") : String).length < (("AMAZON MKTPL") : String).length
    ∧ (("7200") : String) ≠ ("7300") :=
  ⟨by decide, by decide, by decide, by decide, by decide⟩

/-- C2 (amended): for the CapOne and Chase classifiers — which sort the keys
by descending length with Python's stable `sorted` — the returned key is a
matching key, no matching key is longer, and among the matching keys of that
maximal length it is the first in declaration order; both classifiers return
that key's account.  (The TCB classifier instead returns the first-declared
matching key regardless of length, as witnessed by the counterexample; its
shipped maps are empty.) -/
theorem c2_longest_match_first_registered (m : List (String × Int)) (desc k₀ : String)
    (h : sortedFindKey m desc = some k₀) :
    substrB k₀ (pyUpper desc) = true
    ∧ (∀ k ∈ m.map Prod.fst, substrB k (pyUpper desc) = true → k.length ≤ k₀.length)
    ∧ ((m.map Prod.fst).filter
        (fun k => substrB k (pyUpper desc) && (k.length == k₀.length))).head? = some k₀
    ∧ Capone.map_account m desc = lookupAcct m k₀
    ∧ Chase.map_account m desc = lookupAcct m k₀ := by
  have h' : (sortKeysLenDesc (m.map Prod.fst)).find?
      (fun k => substrB k (pyUpper desc)) = some k₀ := h
  refine ⟨by simpa using List.find?_some h', ?_, ?_, ?_, ?_⟩
  · intro k hk hks
    have hk' : k ∈ sortKeysLenDesc (m.map Prod.fst) := (mem_stableSort _ _ _).2 hk
    have hmax := find?_max_sorted lenGe_refl
      (pairwise_stableSort lenGe lenGe_total lenGe_trans (m.map Prod.fst)) h' k hk' hks
    simpa [lenGe] using hmax
  · have h1 := @find?_filter_head _ (fun k => substrB k (pyUpper desc))
      (fun k => k.length == k₀.length) (sortKeysLenDesc (m.map Prod.fst)) k₀ h' (by simp)
    have h2 : (sortKeysLenDesc (m.map Prod.fst)).filter
        (fun k => substrB k (pyUpper desc) && (k.length == k₀.length)) =
        (m.map Prod.fst).filter
          (fun k => substrB k (pyUpper desc) && (k.length == k₀.length)) := by
      rw [filter_and_split, filter_and_split]
      congr 1
      exact filter_stableSort lenGe (fun k => k.length == k₀.length)
        (fun a b ha hb => by
          have ha' : a.length = k₀.length := by simpa using ha
          have hb' : b.length = k₀.length := by simpa using hb
          simp [lenGe, ha', hb']) (m.map Prod.fst)
    rw [h2] at h1
    exact h1
  · rw [Capone.map_account, h]
  · rw [Chase.map_account, h]

/-- C2 witness: on `"THE HOME DEPOT #123"` with the shipped CapOne map the
classifier finds `"THE HOME DEPOT"` (not the shorter `"HOME DEPOT"`), and
`map_account` returns that key's account. -/
theorem c2_witness :
    sortedFindKey Capone.capone_account_map ("THE HOME DEPOT #123") =
      some ("THE HOME DEPOT")
    ∧ substrB ("THE HOME DEPOT") (pyUpper ("THE HOME DEPOT #123")) = true
    ∧ Capone.map_account Capone.capone_account_map ("THE HOME DEPOT #123") =
        lookupAcct Capone.capone_account_map ("THE HOME DEPOT") := by
  have h : sortedFindKey Capone.capone_account_map ("THE HOME DEPOT #123") =
      some ("THE HOME DEPOT") := by with_unfolding_all rfl
  have hc := c2_longest_match_first_registered Capone.capone_account_map
    ("THE HOME DEPOT #123") ("THE HOME DEPOT") h
  exact ⟨h, hc.1, hc.2.2.2.1⟩

/-- C8 (counterexample): the claim says an unmatched description is returned
with original casing and characters preserved and that this returned value is
what the unmapped report shows; but the TCB pipeline classifies the
*uppercased* description, so the short description attached to the export row
is `"AMAZON WEB SERVICES"`, not the original `"Amazon Web Services"` — while
the unmapped report separately carries the untouched original. -/
theorem c8_counterexample :
    (Tcb.debitExportRows [] [⟨some 1, ("Amazon Web Services"), 5, 0⟩] 2).map
      Tcb.ExportRow.descr = [("AMAZON WEB SERVICES")]
    ∧ (Tcb.unmappedRows [] [⟨some 1, ("Amazon Web Services"), 5, 0⟩]).map
        Tcb.UnmappedRow.descr = [("Amazon Web Services")]
    ∧ (("AMAZON WEB SERVICES") : String) ≠ ("Amazon Web Services") :=
  ⟨by with_unfolding_all rfl, by with_unfolding_all rfl, by decide⟩

/-- C8 (amended): when no key matches, the TCB and CapOne classifiers return
the uncategorized sentinel together with their *input* text unchanged, and
the Chase classifier does so only when the description also lacks the literal
`"AUTOMATIC PAYMENT"` (otherwise it returns the Chase Visa account `2135`
with short description `"AUTOMATIC PAYMENT"`).  The pipelines feed the
classifiers transformed text (uppercased for TCB, punctuation-cleaned for
the card parsers), so the TCB export of an unmatched row carries the
uppercased description; the CapOne export restores the untouched original
`Description` for uncategorized rows; and the unmapped reports of all three
processors carry the untouched original description of the source row. -/
theorem c8_unmatched_description :
    (∀ (m : List (String × String)) (descU : String),
       m.find? (fun kv => substrB kv.1 descU) = none →
       Tcb.map_account m descU = ("7800") ∧ Tcb.short_desc m descU = descU)
    ∧ (∀ (m : List (String × Int)) (desc : String),
       sortedFindKey m desc = none →
       Capone.map_account m desc = Capone.UNCATEGORIZED_ACCOUNT ∧
         Capone.map_short_desc m desc = desc)
    ∧ (∀ (m : List (String × Int)) (desc : String),
       sortedFindKey m desc = none →
       (substrB ("AUTOMATIC PAYMENT") (pyUpper desc) = false →
         Chase.map_account m desc = Chase.UNCATEGORIZED_ACCOUNT ∧
           Chase.map_short_desc m desc = desc) ∧
       (substrB ("AUTOMATIC PAYMENT") (pyUpper desc) = true →
         Chase.map_account m desc = Chase.CHASE_VISA_ACCOUNT ∧
           Chase.map_short_desc m desc = ("AUTOMATIC PAYMENT")))
    ∧ (∀ (m : List (String × Int)) (rows : List Capone.Raw) (gj : Nat)
        (e : List Capone.ExportRow) (u : List Capone.UnmappedRow),
       Capone.process_capone_csv m rows gj = Capone.Result.written e u →
       ∀ x ∈ e, x.account = Capone.UNCATEGORIZED_ACCOUNT →
         ∃ r, r ∈ rows ∧ x.descr = r.descr)
    ∧ (∀ (m : List (String × String)) (rows : List Tcb.Row) (u : Tcb.UnmappedRow),
       u ∈ Tcb.unmappedRows m rows →
       u.account = ("7800") ∧
         ∃ r, r ∈ rows ∧ Tcb.debitPred r = true ∧ u.descr = r.descr ∧
           Tcb.map_account m (pyUpper r.descr) = ("7800"))
    ∧ (∀ (m : List (String × Int)) (rows : List Capone.Raw) (gj : Nat)
        (e : List Capone.ExportRow) (u : List Capone.UnmappedRow),
       Capone.process_capone_csv m rows gj = Capone.Result.written e u →
       ∀ y ∈ u, ∃ r, r ∈ rows ∧ y.descr = r.descr)
    ∧ (∀ (m : List (String × Int)) (rows : List Chase.Raw) (gj : Nat)
        (y : Chase.UnmappedRow),
       y ∈ (Chase.process_chase7772_csv m rows gj).unmapped →
       ∃ r, r ∈ rows ∧ y.descr = r.descr ∧
         Chase.map_account m (Chase.cleanDesc r.descr) = Chase.UNCATEGORIZED_ACCOUNT) := by
  refine ⟨?_, ?_, ?_, ?_, ?_, ?_, ?_⟩
  · intro m descU h
    rw [Tcb.map_account, Tcb.short_desc, h]
    exact ⟨rfl, rfl⟩
  · intro m desc h
    rw [Capone.map_account, Capone.map_short_desc, h]
    exact ⟨rfl, rfl⟩
  · intro m desc h
    constructor
    · intro hno
      rw [Chase.map_account, Chase.map_short_desc, h]
      simp [hno]
    · intro hyes
      rw [Chase.map_account, Chase.map_short_desc, h]
      simp [hyes]
  · intro m rows gj e u hw x hx hacc
    rw [Capone.process_capone_csv] at hw
    by_cases hlen : (stableSort Capone.rawDateLe
        (rows.filter (fun r => decide (0 < Capone.amount r)))).length = 0
    · rw [if_pos hlen] at hw
      cases hw
    · rw [if_neg hlen] at hw
      rcases Capone.Result.written.inj hw with ⟨he, _⟩
      rw [← he] at hx
      rcases mem_numberFrom _ _ _ _ hx with ⟨r, i, hr, rfl⟩
      have hrin : r ∈ rows :=
        (List.mem_filter.1 ((mem_stableSort _ _ _).1 hr)).1
      have hacc' : Capone.map_account m (Capone.cleanDesc r.descr) =
          Capone.UNCATEGORIZED_ACCOUNT := hacc
      refine ⟨r, hrin, ?_⟩
      show Capone.shortForExport m r = r.descr
      rw [Capone.shortForExport, if_neg (by simp [hacc'])]
  · intro m rows u h
    rcases List.mem_map.1 h with ⟨r, hr, rfl⟩
    have hr1 := List.mem_filter.1 hr
    have hmem := (tcb_mem_debitRows rows r).1 hr1.1
    have hacct : Tcb.map_account m (pyUpper r.descr) = ("7800") := by
      simpa using hr1.2
    exact ⟨rfl, r, hmem.1, hmem.2, rfl, hacct⟩
  · intro m rows gj e u hw y hy
    rw [Capone.process_capone_csv] at hw
    by_cases hlen : (stableSort Capone.rawDateLe
        (rows.filter (fun r => decide (0 < Capone.amount r)))).length = 0
    · rw [if_pos hlen] at hw
      cases hw
    · rw [if_neg hlen] at hw
      rcases Capone.Result.written.inj hw with ⟨_, hu⟩
      rw [← hu] at hy
      rcases List.mem_map.1 hy with ⟨r, hr, rfl⟩
      have hrin : r ∈ rows :=
        (List.mem_filter.1 ((mem_stableSort _ _ _).1 (List.mem_filter.1 hr).1)).1
      exact ⟨r, hrin, rfl⟩
  · intro m rows gj y hy
    rcases List.mem_map.1 hy with ⟨r, hr, rfl⟩
    have hr1 := List.mem_filter.1 hr
    have hrin : r ∈ rows := (mem_stableSort _ _ _).1 hr1.1
    have hacct : Chase.map_account m (Chase.cleanDesc r.descr) =
        Chase.UNCATEGORIZED_ACCOUNT := by
      simpa using hr1.2
    exact ⟨r, hrin, rfl, hacct⟩

/-- C8 witness: unmatched descriptions pass through each classifier unchanged
with the sentinel (and Chase's `"AUTOMATIC PAYMENT"` fallback yields `2135`);
the concrete uncategorized CapOne export row keeps the original
`"Stripe Fee"` description, and the concrete TCB unmapped row carries the
sentinel account. -/
theorem c8_witness :
    (Tcb.map_account [] ("FOO") = ("7800") ∧ Tcb.short_desc [] ("FOO") = ("FOO"))
    ∧ (Capone.map_account [] ("BAR") = Capone.UNCATEGORIZED_ACCOUNT
       ∧ Capone.map_short_desc [] ("BAR") = ("BAR"))
    ∧ (Chase.map_account [] ("LUNCH") = Chase.UNCATEGORIZED_ACCOUNT
       ∧ Chase.map_short_desc [] ("LUNCH") = ("LUNCH"))
    ∧ (Chase.map_account [] ("AUTOMATIC PAYMENT THANK YOU") = Chase.CHASE_VISA_ACCOUNT
       ∧ Chase.map_short_desc [] ("AUTOMATIC PAYMENT THANK YOU") = ("AUTOMATIC PAYMENT"))
    ∧ (⟨some 1, "GJ#1", 7800, ("Stripe Fee"), 7, 2130, ("Stripe Fee"), -7⟩ :
        Capone.ExportRow).descr = ("Stripe Fee")
    ∧ (⟨some 1, ("Amazon Web Services"), 5, ("7800")⟩ : Tcb.UnmappedRow).account =
        ("7800") := by
  refine ⟨c8_unmatched_description.1 [] ("FOO") rfl,
    c8_unmatched_description.2.1 [] ("BAR") (by with_unfolding_all rfl),
    (c8_unmatched_description.2.2.1 [] ("LUNCH") (by with_unfolding_all rfl)).1
      (by decide),
    (c8_unmatched_description.2.2.1 [] ("AUTOMATIC PAYMENT THANK YOU")
      (by with_unfolding_all rfl)).2 (by decide), ?_, ?_⟩
  · have hw : Capone.process_capone_csv [] [⟨some 1, ("Stripe Fee"), some 7, none⟩] 1 =
        Capone.Result.written
          [⟨some 1, "GJ#1", 7800, ("Stripe Fee"), 7, 2130, ("Stripe Fee"), -7⟩]
          [⟨some 1, ("Stripe Fee"), some 7, none, 7⟩] := by with_unfolding_all rfl
    have hx : (⟨some 1, "GJ#1", 7800, ("Stripe Fee"), 7, 2130, ("Stripe Fee"), -7⟩ :
        Capone.ExportRow) ∈
        [(⟨some 1, "GJ#1", 7800, ("Stripe Fee"), 7, 2130, ("Stripe Fee"), -7⟩ :
          Capone.ExportRow)] := List.mem_singleton.mpr rfl
    rcases c8_unmatched_description.2.2.2.1 [] [⟨some 1, ("Stripe Fee"), some 7, none⟩]
      1 _ _ hw _ hx rfl with ⟨r, hrin, hdescr⟩
    rw [hdescr, List.mem_singleton.1 hrin]
  · have hu : (⟨some 1, ("Amazon Web Services"), 5, ("7800")⟩ : Tcb.UnmappedRow) ∈
        Tcb.unmappedRows [] [⟨some 1, ("Amazon Web Services"), 5, 0⟩] := by
      have hlist : Tcb.unmappedRows [] [⟨some 1, ("Amazon Web Services"), 5, 0⟩] =
          [⟨some 1, ("Amazon Web Services"), 5, ("7800")⟩] := by with_unfolding_all rfl
      rw [hlist]
      exact List.mem_singleton.mpr rfl
    exact (c8_unmatched_description.2.2.2.2.1 []
      [⟨some 1, ("Amazon Web Services"), 5, 0⟩] _ hu).1

/-! ## Helpers for the summary-line min/max fold -/

theorem foldl_min_spec (l : List ℚ) : ∀ a : ℚ,
    l.foldl min a ≤ a ∧ (∀ x ∈ l, l.foldl min a ≤ x) ∧
      (l.foldl min a = a ∨ l.foldl min a ∈ l) := by
  induction l with
  | nil => intro a; simp
  | cons v vs ih =>
    intro a
    rcases ih (min a v) with ⟨h1, h2, h3⟩
    refine ⟨le_trans h1 (min_le_left a v), ?_, ?_⟩
    · intro x hx
      rcases List.mem_cons.1 hx with rfl | hx
      · exact le_trans h1 (min_le_right a x)
      · exact h2 x hx
    · rcases h3 with h3 | h3
      · rcases min_choice a v with hm | hm
        · exact Or.inl (h3.trans hm)
        · rw [List.mem_cons]
          exact Or.inr (Or.inl (h3.trans hm))
      · exact Or.inr (List.mem_cons_of_mem v h3)

theorem foldl_max_spec (l : List ℚ) : ∀ a : ℚ,
    a ≤ l.foldl max a ∧ (∀ x ∈ l, x ≤ l.foldl max a) ∧
      (l.foldl max a = a ∨ l.foldl max a ∈ l) := by
  induction l with
  | nil => intro a; simp
  | cons v vs ih =>
    intro a
    rcases ih (max a v) with ⟨h1, h2, h3⟩
    refine ⟨le_trans (le_max_left a v) h1, ?_, ?_⟩
    · intro x hx
      rcases List.mem_cons.1 hx with rfl | hx
      · exact le_trans (le_max_right a x) h1
      · exact h2 x hx
    · rcases h3 with h3 | h3
      · rcases max_choice a v with hm | hm
        · exact Or.inl (h3.trans hm)
        · rw [List.mem_cons]
          exact Or.inr (Or.inl (h3.trans hm))
      · exact Or.inr (List.mem_cons_of_mem v h3)

theorem summary_foldl_filterMap (row : List String) : ∀ st : Option ℚ × Option ℚ,
    row.foldl
      (fun st cell =>
        match Tcb.summaryParse cell with
        | none => st
        | some v => Tcb.summaryStep st v) st =
    (row.filterMap Tcb.summaryParse).foldl Tcb.summaryStep st := by
  induction row with
  | nil => intro st; rfl
  | cons cell row' ih =>
    intro st
    cases hp : Tcb.summaryParse cell with
    | none => simp [List.foldl_cons, List.filterMap_cons, hp, ih]
    | some v => simp [List.foldl_cons, List.filterMap_cons, hp, ih]

theorem summaryStep_foldl_some (l : List ℚ) : ∀ d c : ℚ,
    l.foldl Tcb.summaryStep (some d, some c) =
      (some (l.foldl min d), some (l.foldl max c)) := by
  induction l with
  | nil => intro d c; rfl
  | cons v vs ih =>
    intro d c
    have hmin : (if v < d then some v else some d) = some (min d v) := by
      rcases lt_or_le v d with h | h
      · rw [if_pos h, min_eq_right h.le]
      · rw [if_neg (not_lt.2 h), min_eq_left h]
    have hmax : (if v > c then some v else some c) = some (max c v) := by
      rcases lt_or_le c v with h | h
      · rw [if_pos h, max_eq_right h.le]
      · rw [if_neg (not_lt.2 h), max_eq_left h]
    show List.foldl Tcb.summaryStep (Tcb.summaryStep (some d, some c) v) vs = _
    rw [Tcb.summaryStep]
    simp only [hmin, hmax]
    rw [ih (min d v) (max c v)]
    rfl

theorem summaryTotals_spec (row : List String) (d c : ℚ)
    (h : Tcb.summaryTotals row = (some d, some c)) :
    ∃ v vs, row.filterMap Tcb.summaryParse = v :: vs ∧
      d = vs.foldl min v ∧ c = vs.foldl max v := by
  rw [Tcb.summaryTotals, summary_foldl_filterMap] at h
  cases hfm : row.filterMap Tcb.summaryParse with
  | nil =>
    rw [hfm] at h
    cases h
  | cons v vs =>
    rw [hfm] at h
    have hstep : Tcb.summaryStep ((none : Option ℚ), (none : Option ℚ)) v =
        (some v, some v) := rfl
    rw [List.foldl_cons, hstep, summaryStep_foldl_some vs v v] at h
    rcases Prod.mk.injEq .. ▸ h with ⟨h1, h2⟩
    exact ⟨v, vs, rfl, (Option.some_inj.1 h1).symm, (Option.some_inj.1 h2).symm⟩

/-- C9 (confirmed): when a summary row exists (the last grid row whose first
cell contains `"TOTAL"`), the smaller of its extracted numeric values is the
expected debit total and the larger the expected credit total (each compared
with strict tolerance `< 1`), and the summary check only feeds the warning
flag: every export of `Tcb.process` is produced regardless of the check's
outcome. -/
theorem c9_summary_soft_check :
    (∀ (row : List String) (d c : ℚ),
       Tcb.summaryTotals row = (some d, some c) →
       d ≤ c ∧ d ∈ row.filterMap Tcb.summaryParse ∧ c ∈ row.filterMap Tcb.summaryParse ∧
         ∀ v ∈ row.filterMap Tcb.summaryParse, d ≤ v ∧ v ≤ c)
    ∧ (∀ s t : ℚ, Tcb.matchesTotal (some s) t = true ↔ |s - t| < 1)
    ∧ (∀ (allRows : List (List String)) (row : List String),
       Tcb.findSummaryRow allRows = some row →
       ∃ l₁ l₂, allRows = l₁ ++ row :: l₂ ∧ Tcb.summaryRowPred row = true ∧
         ∀ x ∈ l₂, Tcb.summaryRowPred x = false)
    ∧ (∀ (dm cm : List (String × String)) (rows : List Tcb.Row)
        (allRows : List (List String)) (gj dp : Nat),
       (Tcb.process dm cm rows allRows gj dp).debitExport =
           Tcb.debitExportRows dm rows gj ∧
         (Tcb.process dm cm rows allRows gj dp).creditExport =
           Tcb.creditExportRows cm rows dp ∧
         (Tcb.process dm cm rows allRows gj dp).unmapped = Tcb.unmappedRows dm rows) := by
  refine ⟨?_, ?_, ?_, ?_⟩
  · intro row d c h
    rcases summaryTotals_spec row d c h with ⟨v, vs, hfm, hd, hc⟩
    rcases foldl_min_spec vs v with ⟨hd1, hd2, hd3⟩
    rcases foldl_max_spec vs v with ⟨hc1, hc2, hc3⟩
    rw [hfm, hd, hc]
    refine ⟨le_trans hd1 hc1, ?_, ?_, ?_⟩
    · rcases hd3 with h3 | h3
      · rw [h3]; exact List.mem_cons_self v vs
      · exact List.mem_cons_of_mem v h3
    · rcases hc3 with h3 | h3
      · rw [h3]; exact List.mem_cons_self v vs
      · exact List.mem_cons_of_mem v h3
    · intro x hx
      rcases List.mem_cons.1 hx with rfl | hx
      · exact ⟨hd1, hc1⟩
      · exact ⟨hd2 x hx, hc2 x hx⟩
  · intro s t
    rw [Tcb.matchesTotal]
    exact decide_eq_true_iff
  · intro allRows row h
    rcases find?_decomp h with ⟨l₁, l₂, hsplit, hfail, hpred⟩
    refine ⟨l₂.reverse, l₁.reverse, ?_, hpred, ?_⟩
    · have := congrArg List.reverse hsplit
      rw [List.reverse_reverse] at this
      rw [this, List.reverse_append, List.reverse_cons, List.append_assoc]
      simp
    · intro x hx
      exact hfail x (List.mem_reverse.1 hx)
  · intro dm cm rows allRows gj dp
    exact ⟨rfl, rfl, rfl⟩

/-- C9 witness: on the summary row `["TOTAL", "$1,234.56", "789.00"]` the
extracted totals are `(789, 1234.56)` — the smaller value is the debit total
— and the tolerance comparison is `|s − t| < 1`. -/
theorem c9_witness :
    Tcb.summaryTotals [("TOTAL"), ("$1,234.56"), ("789.00")] =
      (some (789 : ℚ), some (1234.56 : ℚ))
    ∧ (789 : ℚ) ≤ 1234.56
    ∧ (Tcb.matchesTotal (some (789 : ℚ)) 788.5 = true ↔ |(789 : ℚ) - 788.5| < 1) := by
  have h : Tcb.summaryTotals [("TOTAL"), ("$1,234.56"), ("789.00")] =
      (some (789 : ℚ), some (1234.56 : ℚ)) := by with_unfolding_all rfl
  exact ⟨h,
    (c9_summary_soft_check.1 [("TOTAL"), ("$1,234.56"), ("789.00")] 789 1234.56 h).1,
    c9_summary_soft_check.2.1 789 788.5⟩
